import Mathlib

/-!
# Dileptonic top-quark reconstruction demo: the event handler of `demo/main.go`

A shallow embedding of the driver in `demo/main.go`: the per-event handler passed to
`r.Read` (lepton role assignment, jet and b-tag preparation, missing transverse energy
components, the two reconstruction calls, the bad-event bookkeeping, the printing) and
the helpers `fmomP4from` and `isBad`.

Conventions of the embedding.

* Go `float32`/`float64` values are elements of a linearly ordered field `F`
  (`ℝ` for the trigonometric identities and the concrete events); the conversions
  `float64(x)` are exact and therefore the identity.
* Go slices are lists; an index expression `xs[i]` is `index xs i`, which raises the
  run-time panic `indexOutOfRange` when `i` is not below the length.
* The packages `lv` (four-vector constructors), `math` (`Sincos`) and `sonn`
  (`RecoTops`, `Sonnenschein`) are not part of the file; the handler takes them as
  parameters.  The smearing histograms `sh` carry the state of a random sampler, so a
  reconstruction call is a function of its arguments and of that state.
-/

namespace TopReco

/-! ## Data model -/

/-- Go run-time panics raised by the handler: an index expression out of range,
with the index and the length of the slice. -/
inductive Panic where
  | indexOutOfRange (idx len : Nat)
  deriving DecidableEq, Repr

/-- The exits of `main` through `log.Fatalf` that the embedding covers: the tree reader
could not be created. -/
inductive Fatal where
  | couldNotCreateTreeReader
  deriving DecidableEq, Repr

/-- Go index expression `xs[i]` together with its bounds check. -/
def index {α : Type} (xs : List α) (i : Nat) : Except Panic α :=
  match xs[i]? with
  | some x => .ok x
  | none => .error (.indexOutOfRange i xs.length)

/-- The Cartesian four-momentum `fmom.PxPyPzE`. -/
structure PxPyPzE (F : Type) where
  Px : F
  Py : F
  Pz : F
  E : F
  deriving DecidableEq, Repr

/-- The part of package `lv` used by the driver: the type `lv.FourVec` is `V`, with its
zero value, its two constructors and its four Cartesian accessors. -/
structure LvPkg (F V : Type) where
  zero : V
  NewFourVecPtEtaPhiM : F → F → F → F → V
  NewFourVecPtEtaPhiE : F → F → F → F → V
  Px : V → F
  Py : V → F
  Pz : V → F
  E : V → F

/-- The variables filled by the tree reader for one entry (`rvars`). -/
structure Event (F : Type) where
  evtNum : Int
  lepPt : List F
  lepEta : List F
  lepPhi : List F
  lepPid : List Int
  jetPt : List F
  jetE : List F
  jetEta : List F
  jetPhi : List F
  jetMV2c10 : List F
  nBjets : Int
  metMet : F
  metPhi : F

/-- The four local variables of the lepton preparation: `lP`, `lbarP`, `lId`, `lbarId`. -/
structure Leptons (V : Type) where
  lP : V
  lbarP : V
  lId : Int
  lbarId : Int

/-- The argument list of a reconstruction call (all but the smearing histograms). -/
structure RecoArgs (F : Type) where
  lep : PxPyPzE F
  lepbar : PxPyPzE F
  lId : Int
  lbarId : Int
  j1 : PxPyPzE F
  j2 : PxPyPzE F
  j1b : Bool
  j2b : Bool
  Etx : F
  Ety : F

/-- A reconstruction function of package `sonn`: from the arguments and the state of the
smearing histograms to the list of reconstructed momenta and the new state. -/
abbrev Reco (F S : Type) := RecoArgs F → S → List (PxPyPzE F) × S

/-- One `fmt.Printf` call of the handler, with the values it prints. -/
inductive Line (F : Type) where
  | entry (entry : Nat) (nBad : Nat)
  | evtNumber (n : Int)
  | nBjets (n : Int)
  | finalState (pids : List Int)
  | p4l (p : PxPyPzE F)
  | p4lbar (p : PxPyPzE F)
  | p4top (p : PxPyPzE F)
  | p4antitop (p : PxPyPzE F)
  | bad (b : Bool)
  | xtop (p : PxPyPzE F)
  | xantitop (p : PxPyPzE F)
  | blank

/-- What the handler reads and writes outside its own locals: the counter `nBad`, the
state of the smearing histograms `sh`, and the lines printed so far. -/
structure St (F S : Type) where
  nBad : Nat
  sh : S
  out : List (Line F)

/-! ## Helpers of `main.go` -/

section Code

variable {F V S : Type} [LinearOrderedField F]

/-- Helper `fmomP4from`: a `fmom.PxPyPzE` from the accessors of a `lv.FourVec`. -/
def fmomP4from (L : LvPkg F V) (fv : V) : PxPyPzE F :=
  ⟨L.Px fv, L.Py fv, L.Pz fv, L.E fv⟩

/-- Helper `isBad`: does the reconstructed momentum carry the failure marker or is it
zero-initialised. -/
def isBad (t : PxPyPzE F) : Bool :=
  let isDefault := decide (t.Px = 10000) && decide (t.Py = 10000) && decide (t.Pz = 10000)
  let isEmpty := decide (t.Px = 0) && decide (t.Py = 0) && decide (t.Pz = 0)
  isDefault || isEmpty

/-! ## The event handler -/

/-- The loop `for i, id := range lepPid` of the lepton preparation, from index `i` on
the remaining identifiers. -/
def leptonLoop (L : LvPkg F V) (ev : Event F) :
    List Int → Nat → Leptons V → Except Panic (Leptons V)
  | [], _, s => .ok s
  | id :: rest, i, s =>
    if id > 0 then do
      let pt ← index ev.lepPt i
      let eta ← index ev.lepEta i
      let phi ← index ev.lepPhi i
      leptonLoop L ev rest (i + 1)
        { s with lbarId := id, lbarP := L.NewFourVecPtEtaPhiM pt eta phi 0.0 }
    else do
      let pt ← index ev.lepPt i
      let eta ← index ev.lepEta i
      let phi ← index ev.lepPhi i
      leptonLoop L ev rest (i + 1)
        { s with lId := id, lP := L.NewFourVecPtEtaPhiM pt eta phi 0.0 }

/-- Lepton preparation: the declarations `var lP, lbarP lv.FourVec`,
`var lId, lbarId int` (zero values) followed by the loop. -/
def prepareLeptons (L : LvPkg F V) (ev : Event F) : Except Panic (Leptons V) :=
  leptonLoop L ev ev.lepPid 0 ⟨L.zero, L.zero, 0, 0⟩

/-- Missing transverse energy components: `sin, cos := math.Sincos(metPhi)`,
`Etx := metMet * cos`, `Ety := metMet * sin`. -/
def metComponents (Sincos : F → F × F) (metMet metPhi : F) : F × F :=
  let sc := Sincos metPhi
  (metMet * sc.2, metMet * sc.1)

/-- The handler up to the reconstruction call: leptons, the two leading jets with their
b-tag decisions, the missing transverse energy components. -/
def prepareInput (L : LvPkg F V) (Sincos : F → F × F) (ev : Event F) :
    Except Panic (RecoArgs F) := do
  let leps ← prepareLeptons L ev
  let pt0 ← index ev.jetPt 0
  let eta0 ← index ev.jetEta 0
  let phi0 ← index ev.jetPhi 1
  let e0 ← index ev.jetE 0
  let j1P := L.NewFourVecPtEtaPhiE pt0 eta0 phi0 e0
  let pt1 ← index ev.jetPt 1
  let eta1 ← index ev.jetEta 1
  let phi1 ← index ev.jetPhi 1
  let e1 ← index ev.jetE 1
  let j2P := L.NewFourVecPtEtaPhiE pt1 eta1 phi1 e1
  let d0 ← index ev.jetMV2c10 0
  let j1b := decide (d0 > 0.691)
  let d1 ← index ev.jetMV2c10 1
  let j2b := decide (d1 > 0.691)
  let et := metComponents Sincos ev.metMet ev.metPhi
  pure
    { lep := fmomP4from L leps.lP, lepbar := fmomP4from L leps.lbarP,
      lId := leps.lId, lbarId := leps.lbarId,
      j1 := fmomP4from L j1P, j2 := fmomP4from L j2P, j1b := j1b, j2b := j2b,
      Etx := et.1, Ety := et.2 }

/-- The condition `len(tops) == 0 || isBad(tops[0]) || isBad(tops[1])`, evaluated left
to right with short-circuit. -/
def badCondition (tops : List (PxPyPzE F)) : Except Panic Bool :=
  if tops.length == 0 then .ok true
  else do
    let t0 ← index tops 0
    if isBad t0 then .ok true
    else do
      let t1 ← index tops 1
      .ok (isBad t1)

/-- The block `if len(xtops) > 0` of the printing: the lines printed and, when an index
expression panics, the panic (the line of `xtops[0]` is printed before `xtops[1]` is
read). -/
def printXtops (xtops : List (PxPyPzE F)) : List (Line F) × Except Panic Unit :=
  if xtops.length > 0 then
    match index xtops 0 with
    | .error p => ([], .error p)
    | .ok x0 =>
      match index xtops 1 with
      | .error p => ([Line.xtop x0], .error p)
      | .ok x1 => ([Line.xtop x0, Line.xantitop x1], .ok ())
  else ([], .ok ())

/-- The function passed to `r.Read`, for entry number `entry` with the variables `ev`:
the new state and either `nil` or the panic that stopped it.  `RecoTops` is what `reco`
holds (the branch `if false` is dead), `Sonnenschein` fills `xtops` (the branch
`if true`). -/
def eventHandler (L : LvPkg F V) (Sincos : F → F × F) (RecoTops Sonnenschein : Reco F S)
    (entry : Nat) (ev : Event F) (st : St F S) : St F S × Except Panic Unit :=
  match prepareInput L Sincos ev with
  | .error p => (st, .error p)
  | .ok a =>
    let r1 := RecoTops a st.sh
    let tops := r1.1
    let r2 := Sonnenschein a r1.2
    let xtops := r2.1
    let st1 : St F S := { st with sh := r2.2 }
    match badCondition tops with
    | .error p => (st1, .error p)
    | .ok bad =>
      let st2 : St F S := if bad then { st1 with nBad := st1.nBad + 1 } else st1
      let st3 : St F S :=
        { st2 with out := st2.out ++
            [Line.entry entry st2.nBad, Line.evtNumber ev.evtNum, Line.nBjets ev.nBjets,
             Line.finalState ev.lepPid, Line.p4l a.lep, Line.p4lbar a.lepbar] }
      match index tops 0 with
      | .error p => (st3, .error p)
      | .ok t0 =>
        let st4 : St F S := { st3 with out := st3.out ++ [Line.p4top t0] }
        match index tops 1 with
        | .error p => (st4, .error p)
        | .ok t1 =>
          let st5 : St F S := { st4 with out := st4.out ++ [Line.p4antitop t1, Line.bad bad] }
          match printXtops xtops with
          | (ls, .error p) => ({ st5 with out := st5.out ++ ls }, .error p)
          | (ls, .ok _) => ({ st5 with out := st5.out ++ ls ++ [Line.blank] }, .ok ())

/-- The call `r.Read(f)` on the entries handed out by the reader, the first of them
numbered `i`: the handler `f` is run on each entry in turn, on the state left by the
previous call; a panic stops the program.  The result counts the handler calls. -/
def readLoop (f : Nat → Event F → St F S → St F S × Except Panic Unit) :
    List (Event F) → Nat → St F S → Nat × St F S × Except Panic Unit
  | [], _, st => (0, st, .ok ())
  | ev :: rest, i, st =>
    match f i ev st with
    | (st1, .error p) => (1, st1, .error p)
    | (st1, .ok _) =>
      let r := readLoop f rest (i + 1) st1
      (r.1 + 1, r.2)

/-- The call `rtree.NewReader(t, rvars, rtree.WithRange(beg, end))`: the reader is refused
(`err != nil`) when the range ends beyond the entries of the tree; otherwise it hands out
the entries numbered from `beg` (included) to `end` (excluded). -/
def newReader (tree : List (Event F)) (beg en : Nat) : Option (List (Event F)) :=
  if en ≤ tree.length then some ((tree.drop beg).take (en - beg)) else none

/-- The event loop of `main`: `nBad = 0`, the reader over the range `(0, 100)` with
`log.Fatalf` when it is refused, then the handler on each entry of the range. -/
def eventLoop (L : LvPkg F V) (Sincos : F → F × F) (RecoTops Sonnenschein : Reco F S)
    (tree : List (Event F)) (sh : S) : Except Fatal (Nat × St F S × Except Panic Unit) :=
  match newReader tree 0 100 with
  | none => .error Fatal.couldNotCreateTreeReader
  | some entries =>
    .ok (readLoop (eventHandler L Sincos RecoTops Sonnenschein) entries 0
      { nBad := 0, sh := sh, out := [] })

end Code

/-! ## The library functions over the reals -/

/-- Modelled from the spec: the constructors of package `lv`
(`github.com/rmadar/go-lorentz-vector`), which is not part of the source file.  The
four-vectors are built "from (pT, η, φ, mass-or-energy) using standard relations":
`px = pT cos φ`, `py = pT sin φ`, `pz = pT sinh η`, with `E = sqrt (p² + m²)` from a mass
and the measured energy taken as it is; the zero value of `lv.FourVec` has all four
components zero.  The functions of Go package `math` are the parameters. -/
def lvStd {F : Type} [LinearOrderedField F] (cos sin sinh sqrt : F → F) :
    LvPkg F (PxPyPzE F) where
  zero := ⟨0, 0, 0, 0⟩
  NewFourVecPtEtaPhiM := fun pt eta phi m =>
    let px := pt * cos phi
    let py := pt * sin phi
    let pz := pt * sinh eta
    ⟨px, py, pz, sqrt (px * px + py * py + pz * pz + m * m)⟩
  NewFourVecPtEtaPhiE := fun pt eta phi e =>
    ⟨pt * cos phi, pt * sin phi, pt * sinh eta, e⟩
  Px := fun v => v.Px
  Py := fun v => v.Py
  Pz := fun v => v.Pz
  E := fun v => v.E

/-- Package `lv` over the real numbers. -/
noncomputable def lvReal : LvPkg ℝ (PxPyPzE ℝ) :=
  lvStd Real.cos Real.sin Real.sinh Real.sqrt

/-- Go `math.Sincos` over the real numbers: the sine first, the cosine second. -/
noncomputable def realSincos (x : ℝ) : ℝ × ℝ := (Real.sin x, Real.cos x)

/-! ## Concrete inputs -/

/-- The scenario of the specification: leptons (50, 0.1, 0.3) and (40, -0.2, 2.9), jets
(80, 0.5, -1.0, E = 120) and (60, -0.4, 1.5, E = 90), both b-tagged; the missing
transverse momentum has magnitude 25 and azimuth 0. -/
noncomputable def scenario : Event ℝ where
  evtNum := 1
  lepPt := [50, 40]
  lepEta := [0.1, -0.2]
  lepPhi := [0.3, 2.9]
  lepPid := [11, -13]
  jetPt := [80, 60]
  jetE := [120, 90]
  jetEta := [0.5, -0.4]
  jetPhi := [-1.0, 1.5]
  jetMV2c10 := [0.9, 0.8]
  nBjets := 2
  metMet := 25
  metPhi := 0

/-- The scenario without any lepton. -/
noncomputable def noLeptons : Event ℝ :=
  { scenario with lepPt := [], lepEta := [], lepPhi := [], lepPid := [] }

/-- The scenario with a single jet. -/
noncomputable def oneJet : Event ℝ :=
  { scenario with jetPt := [80], jetE := [120], jetEta := [0.5], jetPhi := [-1.0],
                  jetMV2c10 := [0.9] }

/-- A reconstructed momentum that is not bad. -/
noncomputable def goodTop : PxPyPzE ℝ := ⟨10, 20, 30, 180⟩

/-- A reconstruction function returning two momenta. -/
noncomputable def recoPair : Reco ℝ Unit := fun _ s => ([goodTop, goodTop], s)

/-- The failure marker in all three momentum components. -/
noncomputable def sentinel : PxPyPzE ℝ := ⟨10000, 10000, 10000, 10000⟩

/-- A reconstruction function whose result is good for a b-tagged leading jet and is
the pair of failure markers otherwise. -/
noncomputable def recoByTag : Reco ℝ Unit :=
  fun a s => (if a.j1b then [goodTop, goodTop] else [sentinel, sentinel], s)

/-- The scenario with discriminants below the b-tag threshold. -/
noncomputable def untagged : Event ℝ :=
  { scenario with jetMV2c10 := [0.1, 0.2] }

/-- A tree of 100 entries: 50 times the scenario, then 50 times its untagged variant. -/
noncomputable def tree100 : List (Event ℝ) :=
  List.replicate 50 scenario ++ List.replicate 50 untagged

/-- A reconstruction function returning a single momentum. -/
noncomputable def recoSingle : Reco ℝ Unit := fun _ s => ([goodTop], s)

/-! ## Reading of the claims -/

section Readings

variable {F V S : Type} [LinearOrderedField F]

/-- The arrays of an event are long enough for the handler: the lepton kinematic arrays
cover the identifier array and each jet array holds at least two entries. -/
def WellFormed (ev : Event F) : Prop :=
  ev.lepPid.length ≤ ev.lepPt.length ∧ ev.lepPid.length ≤ ev.lepEta.length ∧
  ev.lepPid.length ≤ ev.lepPhi.length ∧
  2 ≤ ev.jetPt.length ∧ 2 ≤ ev.jetEta.length ∧ 2 ≤ ev.jetPhi.length ∧
  2 ≤ ev.jetE.length ∧ 2 ≤ ev.jetMV2c10.length

end Readings

/-! ## Basic facts -/

section Printing

variable {F S : Type}

/-- The block printing `xtops` fails exactly on a one-element list, at `xtops[1]`. -/
theorem printXtops_status (xtops : List (PxPyPzE F)) :
    ((printXtops xtops).2 = .ok () ↔ xtops.length ≠ 1) ∧
    (xtops.length = 1 → (printXtops xtops).2 = .error (.indexOutOfRange 1 1)) := by
  match xtops with
  | [] => simp [printXtops]
  | [x] => simp [printXtops, index]
  | x :: y :: rest => simp [printXtops, index]

/-- The counter over the event loop: it does not decrease, it grows by at most one per
handler call, and the handler is called at most once per entry. -/
theorem readLoop_nBad (f : Nat → Event F → St F S → St F S × Except Panic Unit)
    (hf : ∀ i ev st, st.nBad ≤ (f i ev st).1.nBad ∧ (f i ev st).1.nBad ≤ st.nBad + 1)
    (evs : List (Event F)) :
    ∀ (i : Nat) (st : St F S),
      st.nBad ≤ (readLoop f evs i st).2.1.nBad ∧
      (readLoop f evs i st).2.1.nBad ≤ st.nBad + (readLoop f evs i st).1 ∧
      (readLoop f evs i st).1 ≤ evs.length := by
  induction evs with
  | nil =>
    intro i st
    simp [readLoop]
  | cons ev rest ih =>
    intro i st
    obtain ⟨h1, h2⟩ := hf i ev st
    rw [readLoop]
    rcases hfx : f i ev st with ⟨st1, e⟩
    rw [hfx] at h1 h2
    cases e with
    | error p =>
      simp only [List.length_cons]
      exact ⟨h1, h2, by omega⟩
    | ok u =>
      obtain ⟨k1, k2, k3⟩ := ih (i + 1) st1
      simp only [List.length_cons]
      refine ⟨le_trans h1 k1, ?_, by omega⟩
      simp only at h1 h2
      omega

/-- The event loop on a list of entries whose handler calls all complete: every entry is
processed, and the counter grows by the number of entries on which the handler adds
one. -/
theorem readLoop_count (f : Nat → Event F → St F S → St F S × Except Panic Unit)
    (bad : Event F → Bool) (evs : List (Event F))
    (h : ∀ ev ∈ evs, ∀ (j : Nat) (s : St F S), (f j ev s).2 = .ok () ∧
      (f j ev s).1.nBad = s.nBad + (if bad ev then 1 else 0)) :
    ∀ (i : Nat) (st : St F S),
      (readLoop f evs i st).1 = evs.length ∧
      (readLoop f evs i st).2.2 = .ok () ∧
      (readLoop f evs i st).2.1.nBad = st.nBad + evs.countP bad := by
  induction evs with
  | nil =>
    intro i st
    simp [readLoop]
  | cons ev rest ih =>
    intro i st
    obtain ⟨h1, h2⟩ := h ev (List.mem_cons_self _ _) i st
    obtain ⟨k1, k2, k3⟩ := ih (fun e he => h e (List.mem_cons_of_mem _ he)) (i + 1)
      (f i ev st).1
    rw [readLoop]
    rcases hfx : f i ev st with ⟨st1, e⟩
    rw [hfx] at h1 h2 k1 k2 k3
    simp only at h1
    subst h1
    simp only [List.length_cons, List.countP_cons]
    refine ⟨by rw [k1], k2, ?_⟩
    rw [k3]
    simp only at h2
    rw [h2]
    omega

/-- One turn of the event loop: after a completed handler call the loop goes on with
the next entry on the state the call has left; a panic ends it. -/
theorem readLoop_cons (f : Nat → Event F → St F S → St F S × Except Panic Unit)
    (ev : Event F) (rest : List (Event F)) (i : Nat) (st : St F S) :
    ((f i ev st).2 = .ok () →
      readLoop f (ev :: rest) i st =
        ((readLoop f rest (i + 1) (f i ev st).1).1 + 1,
         (readLoop f rest (i + 1) (f i ev st).1).2)) ∧
    (∀ p, (f i ev st).2 = .error p →
      readLoop f (ev :: rest) i st = (1, (f i ev st).1, .error p)) := by
  rw [readLoop]
  rcases hfx : f i ev st with ⟨st1, e⟩
  cases e with
  | error q =>
    refine ⟨fun hc => ?_, fun p hp => ?_⟩
    · cases hc
    · simp only [Except.error.injEq] at hp
      subst hp
      rfl
  | ok u =>
    refine ⟨fun _ => rfl, fun p hp => ?_⟩
    cases hp

end Printing

section Lemmas

variable {F V S : Type} [LinearOrderedField F]

theorem index_eq_ok_iff {α : Type} (xs : List α) (i : Nat) (x : α) :
    index xs i = .ok x ↔ xs[i]? = some x := by
  unfold index
  cases h : xs[i]? <;> simp

theorem index_eq_error_iff {α : Type} (xs : List α) (i : Nat) (p : Panic) :
    index xs i = .error p ↔ xs.length ≤ i ∧ p = .indexOutOfRange i xs.length := by
  unfold index
  cases h : xs[i]? with
  | none =>
    have := List.getElem?_eq_none_iff.mp h
    simp [this, eq_comm]
  | some x =>
    have : i < xs.length := by
      by_contra hc
      rw [List.getElem?_eq_none_iff.mpr (by omega)] at h
      cases h
    simp
    omega

theorem index_of_lt {α : Type} (xs : List α) (i : Nat) (h : i < xs.length) :
    index xs i = .ok (xs.get ⟨i, h⟩) := by
  rw [index_eq_ok_iff]
  simp [List.getElem?_eq_getElem h]

theorem bind_eq_ok_iff {α β : Type} (m : Except Panic α) (f : α → Except Panic β) (b : β) :
    (m >>= f) = .ok b ↔ ∃ x, m = .ok x ∧ f x = .ok b := by
  cases m <;> simp [bind, Except.bind]

/-- The input preparation returns exactly when the lepton preparation returns and the
index expressions of the jet preparation are in range, with the arguments as built by
the source. -/
theorem prepareInput_eq_ok_iff (L : LvPkg F V) (Sincos : F → F × F) (ev : Event F)
    (a : RecoArgs F) :
    prepareInput L Sincos ev = .ok a ↔
      ∃ (leps : Leptons V) (pt0 pt1 eta0 eta1 phi1 e0 e1 d0 d1 : F),
        prepareLeptons L ev = .ok leps ∧
        ev.jetPt[0]? = some pt0 ∧ ev.jetPt[1]? = some pt1 ∧
        ev.jetEta[0]? = some eta0 ∧ ev.jetEta[1]? = some eta1 ∧
        ev.jetPhi[1]? = some phi1 ∧
        ev.jetE[0]? = some e0 ∧ ev.jetE[1]? = some e1 ∧
        ev.jetMV2c10[0]? = some d0 ∧ ev.jetMV2c10[1]? = some d1 ∧
        a = { lep := fmomP4from L leps.lP, lepbar := fmomP4from L leps.lbarP,
              lId := leps.lId, lbarId := leps.lbarId,
              j1 := fmomP4from L (L.NewFourVecPtEtaPhiE pt0 eta0 phi1 e0),
              j2 := fmomP4from L (L.NewFourVecPtEtaPhiE pt1 eta1 phi1 e1),
              j1b := decide (d0 > 0.691), j2b := decide (d1 > 0.691),
              Etx := (metComponents Sincos ev.metMet ev.metPhi).1,
              Ety := (metComponents Sincos ev.metMet ev.metPhi).2 } := by
  unfold prepareInput
  simp only [bind_eq_ok_iff, index_eq_ok_iff, pure, Except.pure, Except.ok.injEq]
  constructor
  · rintro ⟨leps, hl, pt0, h1, eta0, h2, phi0, h3, e0, h4, pt1, h5, eta1, h6, phi1, h7,
      e1, h8, d0, h9, d1, h10, rfl⟩
    have : phi0 = phi1 := by
      rw [h3] at h7
      exact Option.some.inj h7
    subst this
    exact ⟨leps, pt0, pt1, eta0, eta1, phi0, e0, e1, d0, d1, hl, h1, h5, h2, h6, h3, h4, h8,
      h9, h10, rfl⟩
  · rintro ⟨leps, pt0, pt1, eta0, eta1, phi1, e0, e1, d0, d1, hl, h1, h5, h2, h6, h3, h4, h8,
      h9, h10, rfl⟩
    exact ⟨leps, hl, pt0, h1, eta0, h2, phi1, h3, e0, h4, pt1, h5, eta1, h6, phi1, h3,
      e1, h8, d0, h9, d1, h10, rfl⟩

/-- The lepton loop returns when the three kinematic arrays cover the indices it
visits. -/
theorem leptonLoop_ok (L : LvPkg F V) (ev : Event F) (ids : List Int) :
    ∀ (i : Nat) (s : Leptons V),
      i + ids.length ≤ ev.lepPt.length → i + ids.length ≤ ev.lepEta.length →
      i + ids.length ≤ ev.lepPhi.length →
      ∃ r, leptonLoop L ev ids i s = .ok r := by
  induction ids with
  | nil =>
    intro i s _ _ _
    exact ⟨s, rfl⟩
  | cons id rest ih =>
    intro i s h1 h2 h3
    simp only [List.length_cons] at h1 h2 h3
    rw [leptonLoop]
    rw [index_of_lt ev.lepPt i (by omega), index_of_lt ev.lepEta i (by omega),
      index_of_lt ev.lepPhi i (by omega)]
    split
    · exact ih (i + 1) _ (by omega) (by omega) (by omega)
    · exact ih (i + 1) _ (by omega) (by omega) (by omega)

/-- The lepton loop returns only when the three kinematic arrays cover the indices it
visits: the length conditions of `leptonLoop_ok` are necessary. -/
theorem leptonLoop_lengths (L : LvPkg F V) (ev : Event F) (ids : List Int) :
    ∀ (i : Nat) (s r : Leptons V), leptonLoop L ev ids i s = .ok r → ids ≠ [] →
      i + ids.length ≤ ev.lepPt.length ∧ i + ids.length ≤ ev.lepEta.length ∧
      i + ids.length ≤ ev.lepPhi.length := by
  induction ids with
  | nil =>
    intro i s r _ hne
    exact absurd rfl hne
  | cons hd rest ih =>
    intro i s r h _
    have key : ∃ s1, index ev.lepPt i ≠ .error (.indexOutOfRange i ev.lepPt.length) ∧
        index ev.lepEta i ≠ .error (.indexOutOfRange i ev.lepEta.length) ∧
        index ev.lepPhi i ≠ .error (.indexOutOfRange i ev.lepPhi.length) ∧
        leptonLoop L ev rest (i + 1) s1 = .ok r := by
      rw [leptonLoop] at h
      split at h
      · simp only [bind_eq_ok_iff] at h
        obtain ⟨pt, hpt, eta, heta, phi, hphi, hrec⟩ := h
        exact ⟨_, by simp [hpt], by simp [heta], by simp [hphi], hrec⟩
      · simp only [bind_eq_ok_iff] at h
        obtain ⟨pt, hpt, eta, heta, phi, hphi, hrec⟩ := h
        exact ⟨_, by simp [hpt], by simp [heta], by simp [hphi], hrec⟩
    obtain ⟨s1, k1, k2, k3, hrec⟩ := key
    have l1 : i < ev.lepPt.length := by
      by_contra hc
      exact k1 ((index_eq_error_iff _ _ _).mpr ⟨by omega, rfl⟩)
    have l2 : i < ev.lepEta.length := by
      by_contra hc
      exact k2 ((index_eq_error_iff _ _ _).mpr ⟨by omega, rfl⟩)
    have l3 : i < ev.lepPhi.length := by
      by_contra hc
      exact k3 ((index_eq_error_iff _ _ _).mpr ⟨by omega, rfl⟩)
    simp only [List.length_cons]
    cases rest with
    | nil =>
      simp only [List.length_nil]
      omega
    | cons x xs =>
      have := ih (i + 1) s1 r hrec (by simp)
      simp only [List.length_cons] at this ⊢
      omega

/-- What the lepton loop leaves in the four variables: each slot holds the identifier and
the four-vector of the last entry of its sign, and is untouched when there is none. -/
theorem leptonLoop_spec (L : LvPkg F V) (ev : Event F) (ids : List Int) :
    ∀ (i : Nat) (s r : Leptons V), leptonLoop L ev ids i s = .ok r →
      (∀ (j : Nat) (id : Int), ids[j]? = some id → 0 < id →
          (∀ (k : Nat) (id2 : Int), j < k → ids[k]? = some id2 → id2 ≤ 0) →
          ∃ pt eta phi, ev.lepPt[i + j]? = some pt ∧ ev.lepEta[i + j]? = some eta ∧
            ev.lepPhi[i + j]? = some phi ∧ r.lbarId = id ∧
            r.lbarP = L.NewFourVecPtEtaPhiM pt eta phi 0.0) ∧
      ((∀ id ∈ ids, id ≤ 0) → r.lbarId = s.lbarId ∧ r.lbarP = s.lbarP) ∧
      (∀ (j : Nat) (id : Int), ids[j]? = some id → id ≤ 0 →
          (∀ (k : Nat) (id2 : Int), j < k → ids[k]? = some id2 → 0 < id2) →
          ∃ pt eta phi, ev.lepPt[i + j]? = some pt ∧ ev.lepEta[i + j]? = some eta ∧
            ev.lepPhi[i + j]? = some phi ∧ r.lId = id ∧
            r.lP = L.NewFourVecPtEtaPhiM pt eta phi 0.0) ∧
      ((∀ id ∈ ids, 0 < id) → r.lId = s.lId ∧ r.lP = s.lP) := by
  induction ids with
  | nil =>
    intro i s r h
    simp only [leptonLoop, Except.ok.injEq] at h
    subst h
    simp
  | cons hd rest ih =>
    intro i s r h
    rw [leptonLoop] at h
    split at h
    · rename_i hpos
      simp only [bind_eq_ok_iff, index_eq_ok_iff] at h
      obtain ⟨pt, hpt, eta, heta, phi, hphi, hrec⟩ := h
      obtain ⟨ihA, ihB, ihC, ihD⟩ := ih (i + 1) _ r hrec
      refine ⟨?_, ?_, ?_, ?_⟩
      · intro j id hj hid hlast
        cases j with
        | zero =>
          simp only [List.getElem?_cons_zero, Option.some.injEq] at hj
          subst hj
          have hrest : ∀ x ∈ rest, x ≤ 0 := by
            intro x hx
            obtain ⟨k, hk⟩ := List.getElem?_of_mem hx
            exact hlast (k + 1) x (by omega) (by simpa using hk)
          obtain ⟨e1, e2⟩ := ihB hrest
          exact ⟨pt, eta, phi, hpt, heta, hphi, e1, e2⟩
        | succ j =>
          simp only [List.getElem?_cons_succ] at hj
          have hl : ∀ (k : Nat) (id2 : Int), j < k → rest[k]? = some id2 → id2 ≤ 0 := by
            intro k id2 hk hk2
            exact hlast (k + 1) id2 (by omega) (by simpa using hk2)
          have := ihA j id hj hid hl
          rwa [show i + 1 + j = i + (j + 1) by omega] at this
      · intro hall
        have := hall hd (List.mem_cons_self _ _)
        omega
      · intro j id hj hid hlast
        cases j with
        | zero =>
          simp only [List.getElem?_cons_zero, Option.some.injEq] at hj
          omega
        | succ j =>
          simp only [List.getElem?_cons_succ] at hj
          have hl : ∀ (k : Nat) (id2 : Int), j < k → rest[k]? = some id2 → 0 < id2 := by
            intro k id2 hk hk2
            exact hlast (k + 1) id2 (by omega) (by simpa using hk2)
          have := ihC j id hj hid hl
          rwa [show i + 1 + j = i + (j + 1) by omega] at this
      · intro hall
        exact ihD (fun x hx => hall x (List.mem_cons_of_mem _ hx))
    · rename_i hneg
      simp only [bind_eq_ok_iff, index_eq_ok_iff] at h
      obtain ⟨pt, hpt, eta, heta, phi, hphi, hrec⟩ := h
      obtain ⟨ihA, ihB, ihC, ihD⟩ := ih (i + 1) _ r hrec
      refine ⟨?_, ?_, ?_, ?_⟩
      · intro j id hj hid hlast
        cases j with
        | zero =>
          simp only [List.getElem?_cons_zero, Option.some.injEq] at hj
          omega
        | succ j =>
          simp only [List.getElem?_cons_succ] at hj
          have hl : ∀ (k : Nat) (id2 : Int), j < k → rest[k]? = some id2 → id2 ≤ 0 := by
            intro k id2 hk hk2
            exact hlast (k + 1) id2 (by omega) (by simpa using hk2)
          have := ihA j id hj hid hl
          rwa [show i + 1 + j = i + (j + 1) by omega] at this
      · intro hall
        exact ihB (fun x hx => hall x (List.mem_cons_of_mem _ hx))
      · intro j id hj hid hlast
        cases j with
        | zero =>
          simp only [List.getElem?_cons_zero, Option.some.injEq] at hj
          subst hj
          have hrest : ∀ x ∈ rest, 0 < x := by
            intro x hx
            obtain ⟨k, hk⟩ := List.getElem?_of_mem hx
            exact hlast (k + 1) x (by omega) (by simpa using hk)
          obtain ⟨e1, e2⟩ := ihD hrest
          exact ⟨pt, eta, phi, hpt, heta, hphi, e1, e2⟩
        | succ j =>
          simp only [List.getElem?_cons_succ] at hj
          have hl : ∀ (k : Nat) (id2 : Int), j < k → rest[k]? = some id2 → 0 < id2 := by
            intro k id2 hk hk2
            exact hlast (k + 1) id2 (by omega) (by simpa using hk2)
          have := ihC j id hj hid hl
          rwa [show i + 1 + j = i + (j + 1) by omega] at this
      · intro hall
        have := hall hd (List.mem_cons_self _ _)
        omega

/-- The signs of the two identifier variables after the lepton loop. -/
theorem leptonLoop_sign (L : LvPkg F V) (ev : Event F) (ids : List Int) :
    ∀ (i : Nat) (s r : Leptons V), leptonLoop L ev ids i s = .ok r →
      (s.lId ≤ 0 → r.lId ≤ 0) ∧
      ((0 < s.lbarId ∨ ∃ id ∈ ids, 0 < id) → 0 < r.lbarId) := by
  induction ids with
  | nil =>
    intro i s r h
    simp only [leptonLoop, Except.ok.injEq] at h
    subst h
    simp
  | cons hd rest ih =>
    intro i s r h
    rw [leptonLoop] at h
    split at h
    · rename_i hpos
      simp only [bind_eq_ok_iff, index_eq_ok_iff] at h
      obtain ⟨pt, -, eta, -, phi, -, hrec⟩ := h
      obtain ⟨ih1, ih2⟩ := ih (i + 1) _ r hrec
      exact ⟨fun hs => ih1 hs, fun _ => ih2 (Or.inl hpos)⟩
    · rename_i hneg
      simp only [bind_eq_ok_iff, index_eq_ok_iff] at h
      obtain ⟨pt, -, eta, -, phi, -, hrec⟩ := h
      obtain ⟨ih1, ih2⟩ := ih (i + 1) _ r hrec
      refine ⟨fun _ => ih1 (by simpa using hneg), fun hs => ih2 ?_⟩
      rcases hs with hs | ⟨id, hid, hp⟩
      · exact Or.inl hs
      · rcases List.mem_cons.mp hid with rfl | hmem
        · exact absurd hp hneg
        · exact Or.inr ⟨id, hmem, hp⟩

theorem getElem?_of_lt {α : Type} (xs : List α) (i : Nat) (h : i < xs.length) :
    ∃ x, xs[i]? = some x :=
  ⟨xs.get ⟨i, h⟩, by simp [List.getElem?_eq_getElem h]⟩

theorem lt_length_of_getElem? {α : Type} (xs : List α) (i : Nat) (x : α)
    (h : xs[i]? = some x) : i < xs.length := by
  by_contra hc
  rw [List.getElem?_eq_none_iff.mpr (by omega)] at h
  cases h

/-- On a well-formed event the input preparation returns, with the lepton slots as left
by the lepton preparation. -/
theorem prepareInput_of_wellFormed (L : LvPkg F V) (Sincos : F → F × F) (ev : Event F)
    (hwf : WellFormed ev) :
    ∃ leps a, prepareLeptons L ev = .ok leps ∧ prepareInput L Sincos ev = .ok a ∧
      a.lep = fmomP4from L leps.lP ∧ a.lepbar = fmomP4from L leps.lbarP ∧
      a.lId = leps.lId ∧ a.lbarId = leps.lbarId := by
  obtain ⟨h1, h2, h3, h4, h5, h6, h7, h8⟩ := hwf
  obtain ⟨leps, hl⟩ := leptonLoop_ok L ev ev.lepPid 0 ⟨L.zero, L.zero, 0, 0⟩
    (by omega) (by omega) (by omega)
  obtain ⟨pt0, hpt0⟩ := getElem?_of_lt ev.jetPt 0 (by omega)
  obtain ⟨pt1, hpt1⟩ := getElem?_of_lt ev.jetPt 1 (by omega)
  obtain ⟨eta0, heta0⟩ := getElem?_of_lt ev.jetEta 0 (by omega)
  obtain ⟨eta1, heta1⟩ := getElem?_of_lt ev.jetEta 1 (by omega)
  obtain ⟨phi1, hphi1⟩ := getElem?_of_lt ev.jetPhi 1 (by omega)
  obtain ⟨e0, he0⟩ := getElem?_of_lt ev.jetE 0 (by omega)
  obtain ⟨e1, he1⟩ := getElem?_of_lt ev.jetE 1 (by omega)
  obtain ⟨d0, hd0⟩ := getElem?_of_lt ev.jetMV2c10 0 (by omega)
  obtain ⟨d1, hd1⟩ := getElem?_of_lt ev.jetMV2c10 1 (by omega)
  exact ⟨leps, _, hl, (prepareInput_eq_ok_iff L Sincos ev _).mpr
    ⟨leps, pt0, pt1, eta0, eta1, phi1, e0, e1, d0, d1, hl, hpt0, hpt1, heta0, heta1, hphi1,
      he0, he1, hd0, hd1, rfl⟩, rfl, rfl, rfl, rfl⟩

/-- On a well-formed event the input preparation returns. -/
theorem prepareInput_ok (L : LvPkg F V) (Sincos : F → F × F) (ev : Event F)
    (hwf : WellFormed ev) : ∃ a, prepareInput L Sincos ev = .ok a := by
  obtain ⟨_, a, _, ha, _⟩ := prepareInput_of_wellFormed L Sincos ev hwf
  exact ⟨a, ha⟩

/-- The constant `0.691` of the b-tag decision is converted to `float32`, that is to
`11593056 / 2^24`; on the grid of the `float32` values around it (the multiples of
`2^-24`) the comparison with the rounded constant is the comparison with `0.691`. -/
theorem btag_threshold_float32 (m : ℤ) :
    ((m : ℚ) / 2 ^ 24 > 0.691 ↔ (m : ℚ) / 2 ^ 24 > 11593056 / 2 ^ 24) := by
  rw [gt_iff_lt, gt_iff_lt, div_lt_div_iff_of_pos_right (by positivity), lt_div_iff₀ (by positivity)]
  have h : (0.691 : ℚ) * 2 ^ 24 = 11593056 + 32 / 125 := by norm_num
  rw [h]
  constructor
  · intro hm
    have h1 : ((11593056 : ℤ) : ℚ) < (m : ℚ) := by
      push_cast
      linarith
    exact_mod_cast h1
  · intro hm
    have h1 : (11593056 : ℤ) < m := by exact_mod_cast hm
    have h2 : (11593057 : ℤ) ≤ m := by omega
    have h3 : ((11593057 : ℤ) : ℚ) ≤ (m : ℚ) := by exact_mod_cast h2
    push_cast at h3
    linarith

/-- The input preparation returns only on events whose jet arrays hold two entries. -/
theorem jets_of_prepareInput (L : LvPkg F V) (Sincos : F → F × F) (ev : Event F)
    (a : RecoArgs F) (h : prepareInput L Sincos ev = .ok a) :
    2 ≤ ev.jetPt.length ∧ 2 ≤ ev.jetEta.length ∧ 2 ≤ ev.jetPhi.length ∧
    2 ≤ ev.jetE.length ∧ 2 ≤ ev.jetMV2c10.length := by
  obtain ⟨leps, pt0, pt1, eta0, eta1, phi1, e0, e1, d0, d1, -, -, h1, -, h2, h3, -, h4, -,
    h5, -⟩ := (prepareInput_eq_ok_iff L Sincos ev a).mp h
  exact ⟨lt_length_of_getElem? _ _ _ h1, lt_length_of_getElem? _ _ _ h2,
    lt_length_of_getElem? _ _ _ h3, lt_length_of_getElem? _ _ _ h4,
    lt_length_of_getElem? _ _ _ h5⟩

/-- Once the input preparation has returned, both reconstruction functions are called
with its result: the state of the smearing histograms is the one they leave. -/
theorem eventHandler_sh (L : LvPkg F V) (Sincos : F → F × F) (RecoTops Sonnenschein : Reco F S)
    (entry : Nat) (ev : Event F) (st : St F S) (a : RecoArgs F)
    (h : prepareInput L Sincos ev = .ok a) :
    (eventHandler L Sincos RecoTops Sonnenschein entry ev st).1.sh =
      (Sonnenschein a (RecoTops a st.sh).2).2 := by
  unfold eventHandler
  rw [h]
  dsimp only
  split
  · rfl
  · split
    · split <;> rfl
    · split
      · split <;> rfl
      · split <;> split <;> rfl

/-- The handler on an empty reconstruction result. -/
theorem eventHandler_nil (L : LvPkg F V) (Sincos : F → F × F) (RecoTops Sonnenschein : Reco F S)
    (entry : Nat) (ev : Event F) (st : St F S) (a : RecoArgs F)
    (h : prepareInput L Sincos ev = .ok a) (ht : (RecoTops a st.sh).1 = []) :
    eventHandler L Sincos RecoTops Sonnenschein entry ev st =
      ({ nBad := st.nBad + 1, sh := (Sonnenschein a (RecoTops a st.sh).2).2,
         out := st.out ++
          [Line.entry entry (st.nBad + 1), Line.evtNumber ev.evtNum, Line.nBjets ev.nBjets,
           Line.finalState ev.lepPid, Line.p4l a.lep, Line.p4lbar a.lepbar] },
       .error (.indexOutOfRange 0 0)) := by
  unfold eventHandler
  rw [h]
  simp [ht, badCondition, index]

/-- The handler on a one-element reconstruction result. -/
theorem eventHandler_one (L : LvPkg F V) (Sincos : F → F × F) (RecoTops Sonnenschein : Reco F S)
    (entry : Nat) (ev : Event F) (st : St F S) (a : RecoArgs F) (t0 : PxPyPzE F)
    (h : prepareInput L Sincos ev = .ok a) (ht : (RecoTops a st.sh).1 = [t0]) :
    (eventHandler L Sincos RecoTops Sonnenschein entry ev st).2 =
        .error (.indexOutOfRange 1 1) ∧
    (eventHandler L Sincos RecoTops Sonnenschein entry ev st).1.nBad =
        st.nBad + (if isBad t0 then 1 else 0) := by
  unfold eventHandler
  rw [h]
  by_cases hb : isBad t0 = true
  · simp [ht, badCondition, index, hb, bind, Except.bind]
  · simp [ht, badCondition, index, hb, bind, Except.bind]

/-- The handler on a reconstruction result with two entries or more. -/
theorem eventHandler_two (L : LvPkg F V) (Sincos : F → F × F) (RecoTops Sonnenschein : Reco F S)
    (entry : Nat) (ev : Event F) (st : St F S) (a : RecoArgs F) (t0 t1 : PxPyPzE F)
    (rest : List (PxPyPzE F))
    (h : prepareInput L Sincos ev = .ok a) (ht : (RecoTops a st.sh).1 = t0 :: t1 :: rest) :
    (eventHandler L Sincos RecoTops Sonnenschein entry ev st).2 =
        (printXtops (Sonnenschein a (RecoTops a st.sh).2).1).2 ∧
    (eventHandler L Sincos RecoTops Sonnenschein entry ev st).1.nBad =
        st.nBad + (if isBad t0 || isBad t1 then 1 else 0) := by
  unfold eventHandler
  rw [h]
  by_cases hb : isBad t0 = true <;> by_cases hc : isBad t1 = true <;>
    simp [ht, badCondition, index, hb, hc, bind, Except.bind] <;>
    split <;> simp_all

/-- The change of the counter in one handler call. -/
theorem eventHandler_nBad (L : LvPkg F V) (Sincos : F → F × F)
    (RecoTops Sonnenschein : Reco F S) (entry : Nat) (ev : Event F) (st : St F S) :
    ((eventHandler L Sincos RecoTops Sonnenschein entry ev st).1.nBad = st.nBad + 1 ↔
      ∃ a, prepareInput L Sincos ev = .ok a ∧
        ((RecoTops a st.sh).1 = [] ∨
         (∃ t, (RecoTops a st.sh).1[0]? = some t ∧ isBad t = true) ∨
         (∃ t, (RecoTops a st.sh).1[1]? = some t ∧ isBad t = true))) ∧
    ((eventHandler L Sincos RecoTops Sonnenschein entry ev st).1.nBad = st.nBad ∨
      (eventHandler L Sincos RecoTops Sonnenschein entry ev st).1.nBad = st.nBad + 1) := by
  cases hp : prepareInput L Sincos ev with
  | error p =>
    have : eventHandler L Sincos RecoTops Sonnenschein entry ev st = (st, .error p) := by
      unfold eventHandler
      rw [hp]
    rw [this]
    simp
  | ok a =>
    simp only [Except.ok.injEq, exists_eq_left']
    match ht : (RecoTops a st.sh).1 with
    | [] =>
      rw [eventHandler_nil L Sincos RecoTops Sonnenschein entry ev st a hp ht]
      simp
    | [t0] =>
      obtain ⟨-, h2⟩ := eventHandler_one L Sincos RecoTops Sonnenschein entry ev st a t0 hp ht
      rw [h2]
      by_cases hb : isBad t0 = true <;> simp [hb]
    | t0 :: t1 :: rest =>
      obtain ⟨-, h2⟩ :=
        eventHandler_two L Sincos RecoTops Sonnenschein entry ev st a t0 t1 rest hp ht
      rw [h2]
      by_cases hb : isBad t0 = true <;> by_cases hc : isBad t1 = true <;> simp [hb, hc]

/-- The handler on the scenario with the reconstruction `recoByTag`: the leading jet is
b-tagged, the result is good, the call completes and leaves the counter as it was. -/
theorem handler_scenario_recoByTag (j : Nat) (s : St ℝ Unit) :
    (eventHandler lvReal realSincos recoByTag recoByTag j scenario s).2 = .ok () ∧
    (eventHandler lvReal realSincos recoByTag recoByTag j scenario s).1.nBad =
      s.nBad + (if false = true then 1 else 0) := by
  obtain ⟨a, ha⟩ := prepareInput_ok lvReal realSincos scenario
    (by simp [WellFormed, scenario])
  obtain ⟨leps, pt0, pt1, eta0, eta1, phi1, e0, e1, d0, d1, -, -, -, -, -, -, -, -, hd0, -,
    hrec⟩ := (prepareInput_eq_ok_iff lvReal realSincos scenario a).mp ha
  have hd : d0 = 0.9 := by
    simp [scenario] at hd0
    exact hd0.symm
  have hj : a.j1b = true := by
    rw [hrec, hd]
    simp
    norm_num
  have ht : ∀ u : Unit, (recoByTag a u).1 = [goodTop, goodTop] := by
    intro u
    simp [recoByTag, hj]
  obtain ⟨k1, k2⟩ := eventHandler_two lvReal realSincos recoByTag recoByTag j scenario s a
    goodTop goodTop [] ha (ht _)
  have hg : isBad goodTop = false := by
    simp [isBad, goodTop]
  refine ⟨?_, ?_⟩
  · rw [k1]
    exact (printXtops_status _).1.mpr (by rw [ht]; simp)
  · rw [k2, hg]
    simp

/-- The handler on the untagged scenario with the reconstruction `recoByTag`: the result
is the pair of failure markers, the call completes and adds one to the counter. -/
theorem handler_untagged_recoByTag (j : Nat) (s : St ℝ Unit) :
    (eventHandler lvReal realSincos recoByTag recoByTag j untagged s).2 = .ok () ∧
    (eventHandler lvReal realSincos recoByTag recoByTag j untagged s).1.nBad =
      s.nBad + (if true = true then 1 else 0) := by
  obtain ⟨a, ha⟩ := prepareInput_ok lvReal realSincos untagged
    (by simp [WellFormed, untagged, scenario])
  obtain ⟨leps, pt0, pt1, eta0, eta1, phi1, e0, e1, d0, d1, -, -, -, -, -, -, -, -, hd0, -,
    hrec⟩ := (prepareInput_eq_ok_iff lvReal realSincos untagged a).mp ha
  have hd : d0 = 0.1 := by
    simp [untagged] at hd0
    exact hd0.symm
  have hj : a.j1b = false := by
    rw [hrec, hd]
    simp
    norm_num
  have ht : ∀ u : Unit, (recoByTag a u).1 = [sentinel, sentinel] := by
    intro u
    simp [recoByTag, hj]
  obtain ⟨k1, k2⟩ := eventHandler_two lvReal realSincos recoByTag recoByTag j untagged s a
    sentinel sentinel [] ha (ht _)
  have hg : isBad sentinel = true := by
    simp [isBad, sentinel]
  refine ⟨?_, ?_⟩
  · rw [k1]
    exact (printXtops_status _).1.mpr (by rw [ht]; simp)
  · rw [k2, hg]
    simp

end Lemmas

/-! ## The claims -/

section Claims

variable {F V S : Type} [LinearOrderedField F]

/-- C1: `isBad t` holds exactly when the three momentum components all equal the marker
10000 or all equal 0; the energy component is not consulted; a momentum with only some
components at 10000 or 0, such as (10000, 10000, 0), is not bad. -/
theorem C1_isBad_iff (t : PxPyPzE F) :
    (isBad t = true ↔
      (t.Px = 10000 ∧ t.Py = 10000 ∧ t.Pz = 10000) ∨ (t.Px = 0 ∧ t.Py = 0 ∧ t.Pz = 0)) ∧
    (∀ e : F, isBad { t with E := e } = isBad t) ∧
    isBad ({ Px := 10000, Py := 10000, Pz := 0, E := t.E } : PxPyPzE F) = false := by
  refine ⟨?_, ?_, ?_⟩
  · simp [isBad, and_assoc]
  · intro e
    simp [isBad]
  · simp [isBad]

/-- C2: at the scenario of the specification the first jet four-vector is built with the
azimuth of the sub-leading jet (`jetPhi[1] = 1.5`), not with the leading jet's own
azimuth (`jetPhi[0] = -1.0`), and the two four-vectors differ. -/
theorem C2_first_jet_takes_second_phi :
    scenario.jetPhi[0]? = some (-1.0 : ℝ) ∧ scenario.jetPhi[1]? = some (1.5 : ℝ) ∧
    ∃ a, prepareInput lvReal realSincos scenario = .ok a ∧
      a.j1 = fmomP4from lvReal (lvReal.NewFourVecPtEtaPhiE 80 0.5 1.5 120) ∧
      a.j1 ≠ fmomP4from lvReal (lvReal.NewFourVecPtEtaPhiE 80 0.5 (-1.0) 120) ∧
      a.j2 = fmomP4from lvReal (lvReal.NewFourVecPtEtaPhiE 60 (-0.4) 1.5 90) := by
  refine ⟨by simp [scenario], by simp [scenario], ?_⟩
  have hl : ∃ leps, prepareLeptons lvReal scenario = .ok leps :=
    leptonLoop_ok lvReal scenario _ 0 _ (by simp [scenario]) (by simp [scenario])
      (by simp [scenario])
  obtain ⟨leps, hl⟩ := hl
  refine ⟨_, (prepareInput_eq_ok_iff lvReal realSincos scenario _).mpr
    ⟨leps, 80, 60, 0.5, -0.4, 1.5, 120, 90, 0.9, 0.8, hl, by simp [scenario],
      by simp [scenario], by simp [scenario], by simp [scenario], by simp [scenario],
      by simp [scenario], by simp [scenario], by simp [scenario], by simp [scenario], rfl⟩,
    rfl, ?_, rfl⟩
  intro h
  have hpy : (80 : ℝ) * Real.sin 1.5 = 80 * Real.sin (-1.0) := by
    have := congrArg PxPyPzE.Py h
    simpa [fmomP4from, lvReal, lvStd] using this
  have h1 : 0 < Real.sin 1.5 :=
    Real.sin_pos_of_pos_of_lt_pi (by norm_num) (by linarith [Real.pi_gt_three])
  have h2 : 0 < Real.sin 1 :=
    Real.sin_pos_of_pos_of_lt_pi (by norm_num) (by linarith [Real.pi_gt_three])
  have h3 : Real.sin (-1.0) = -Real.sin 1 := by
    rw [show (-1.0 : ℝ) = -1 by norm_num, Real.sin_neg]
  rw [h3] at hpy
  linarith

/-- C3: when one of the jet arrays (pT, eta, phi, E, b-discriminant) holds fewer than two
entries, the input preparation stops with a panic, and the handler stops with it before
any reconstruction call: the counter, the smearing histograms and the output are as they
were, whatever the reconstruction functions are. -/
theorem C3_fewer_than_two_jets_panics (L : LvPkg F V) (Sincos : F → F × F) (ev : Event F)
    (h : ev.jetPt.length < 2 ∨ ev.jetEta.length < 2 ∨ ev.jetPhi.length < 2 ∨
      ev.jetE.length < 2 ∨ ev.jetMV2c10.length < 2) :
    ∃ p, prepareInput L Sincos ev = .error p ∧
      ∀ (RecoTops Sonnenschein : Reco F S) (entry : Nat) (st : St F S),
        eventHandler L Sincos RecoTops Sonnenschein entry ev st = (st, .error p) := by
  cases hp : prepareInput L Sincos ev with
  | ok a =>
    have := jets_of_prepareInput L Sincos ev a hp
    omega
  | error p =>
    refine ⟨p, rfl, ?_⟩
    intro R X entry st
    unfold eventHandler
    rw [hp]

/-- Witness of C3: the scenario with a single jet. -/
theorem C3_witness :
    oneJet.jetPt.length < 2 ∧
    ∃ p, prepareInput lvReal realSincos oneJet = .error p ∧
      ∀ (RecoTops Sonnenschein : Reco ℝ Unit) (entry : Nat) (st : St ℝ Unit),
        eventHandler lvReal realSincos RecoTops Sonnenschein entry oneJet st = (st, .error p) :=
  ⟨by simp [oneJet], C3_fewer_than_two_jets_panics lvReal realSincos oneJet
    (Or.inl (by simp [oneJet]))⟩

/-- C4: on an event whose lepton kinematic arrays cover the identifier array, the lepton
loop returns; afterwards the anti-lepton slot holds the identifier and the four-vector
(from pT, eta, phi, mass 0.0) of the last entry with id > 0, the lepton slot those of the
last entry with id <= 0, a slot without matching entry keeps its zero value, `lbarId` is
positive as soon as some entry is, and `lId` is never positive. -/
theorem C4_lepton_roles (L : LvPkg F V) (ev : Event F)
    (h1 : ev.lepPid.length ≤ ev.lepPt.length) (h2 : ev.lepPid.length ≤ ev.lepEta.length)
    (h3 : ev.lepPid.length ≤ ev.lepPhi.length) :
    ∃ r, prepareLeptons L ev = .ok r ∧
      (∀ (j : Nat) (id : Int), ev.lepPid[j]? = some id → 0 < id →
          (∀ (k : Nat) (id2 : Int), j < k → ev.lepPid[k]? = some id2 → id2 ≤ 0) →
          ∃ pt eta phi, ev.lepPt[j]? = some pt ∧ ev.lepEta[j]? = some eta ∧
            ev.lepPhi[j]? = some phi ∧ r.lbarId = id ∧
            r.lbarP = L.NewFourVecPtEtaPhiM pt eta phi 0.0) ∧
      (∀ (j : Nat) (id : Int), ev.lepPid[j]? = some id → id ≤ 0 →
          (∀ (k : Nat) (id2 : Int), j < k → ev.lepPid[k]? = some id2 → 0 < id2) →
          ∃ pt eta phi, ev.lepPt[j]? = some pt ∧ ev.lepEta[j]? = some eta ∧
            ev.lepPhi[j]? = some phi ∧ r.lId = id ∧
            r.lP = L.NewFourVecPtEtaPhiM pt eta phi 0.0) ∧
      ((∀ id ∈ ev.lepPid, id ≤ 0) → r.lbarId = 0 ∧ r.lbarP = L.zero) ∧
      ((∀ id ∈ ev.lepPid, 0 < id) → r.lId = 0 ∧ r.lP = L.zero) ∧
      ((∃ id ∈ ev.lepPid, 0 < id) → 0 < r.lbarId) ∧
      r.lId ≤ 0 := by
  obtain ⟨r, hr⟩ := leptonLoop_ok L ev ev.lepPid 0 ⟨L.zero, L.zero, 0, 0⟩
    (by omega) (by omega) (by omega)
  obtain ⟨hA, hB, hC, hD⟩ := leptonLoop_spec L ev ev.lepPid 0 _ r hr
  obtain ⟨hs1, hs2⟩ := leptonLoop_sign L ev ev.lepPid 0 _ r hr
  refine ⟨r, hr, ?_, ?_, hB, hD, fun hex => hs2 (Or.inr hex), hs1 (le_refl _)⟩
  · intro j id hj hid hlast
    simpa using hA j id hj hid hlast
  · intro j id hj hid hlast
    simpa using hC j id hj hid hlast

/-- Witness of C4: the scenario, whose first lepton entry has a positive identifier and
whose second has a negative one. -/
theorem C4_witness :
    scenario.lepPid.length ≤ scenario.lepPt.length ∧
    ∃ r, prepareLeptons lvReal scenario = .ok r ∧ 0 < r.lbarId ∧ r.lId ≤ 0 := by
  obtain ⟨r, hr, -, -, -, -, h5, h6⟩ := C4_lepton_roles lvReal scenario
    (by simp [scenario]) (by simp [scenario]) (by simp [scenario])
  exact ⟨by simp [scenario], r, hr, h5 ⟨11, by simp [scenario], by norm_num⟩, h6⟩

/-- C5 as stated fails: the scenario without any lepton has neither a lepton nor an
anti-lepton, yet the input preparation returns, with both identifiers 0 and both lepton
momenta zero. -/
theorem C5_no_leptons_accepted :
    noLeptons.lepPid = [] ∧
    ∃ a, prepareInput lvReal realSincos noLeptons = .ok a ∧
      a.lId = 0 ∧ a.lbarId = 0 ∧ a.lep = ⟨0, 0, 0, 0⟩ ∧ a.lepbar = ⟨0, 0, 0, 0⟩ := by
  refine ⟨rfl, ?_⟩
  obtain ⟨leps, a, hl, ha, e1, e2, e3, e4⟩ :=
    prepareInput_of_wellFormed lvReal realSincos noLeptons
      (by simp [WellFormed, noLeptons, scenario])
  have : leps = ⟨lvReal.zero, lvReal.zero, 0, 0⟩ := by
    have h : prepareLeptons lvReal noLeptons = .ok ⟨lvReal.zero, lvReal.zero, 0, 0⟩ := rfl
    rw [h] at hl
    exact (Except.ok.inj hl).symm
  subst this
  exact ⟨a, ha, e3, e4, e1, e2⟩

/-- C5, amended: no validation of the lepton roles takes place.  On a well-formed event
the input preparation returns; a role without entry in the identifier array is handed
over with identifier 0 and the four-momentum of the zero-valued `lv.FourVec`; and both
reconstruction functions are called with these arguments. -/
theorem C5_missing_role_passed_as_zero (L : LvPkg F V) (Sincos : F → F × F) (ev : Event F)
    (hwf : WellFormed ev) :
    ∃ a, prepareInput L Sincos ev = .ok a ∧
      ((∀ id ∈ ev.lepPid, id ≤ 0) → a.lbarId = 0 ∧ a.lepbar = fmomP4from L L.zero) ∧
      ((∀ id ∈ ev.lepPid, 0 < id) → a.lId = 0 ∧ a.lep = fmomP4from L L.zero) ∧
      ∀ (RecoTops Sonnenschein : Reco F S) (entry : Nat) (st : St F S),
        (eventHandler L Sincos RecoTops Sonnenschein entry ev st).1.sh =
          (Sonnenschein a (RecoTops a st.sh).2).2 := by
  obtain ⟨leps, a, hl, ha, e1, e2, e3, e4⟩ := prepareInput_of_wellFormed L Sincos ev hwf
  obtain ⟨-, hB, -, hD⟩ := leptonLoop_spec L ev ev.lepPid 0 _ leps hl
  refine ⟨a, ha, ?_, ?_, ?_⟩
  · intro hall
    obtain ⟨x1, x2⟩ := hB hall
    rw [e4, e2, x1, x2]
    exact ⟨rfl, rfl⟩
  · intro hall
    obtain ⟨x1, x2⟩ := hD hall
    rw [e3, e1, x1, x2]
    exact ⟨rfl, rfl⟩
  · intro R X entry st
    exact eventHandler_sh L Sincos R X entry ev st a ha

/-- Witness of C5: the scenario without any lepton is well-formed. -/
theorem C5_witness :
    WellFormed noLeptons ∧
    ∃ a, prepareInput lvReal realSincos noLeptons = .ok a ∧
      ((∀ id ∈ noLeptons.lepPid, id ≤ 0) → a.lbarId = 0 ∧
        a.lepbar = fmomP4from lvReal lvReal.zero) ∧
      ((∀ id ∈ noLeptons.lepPid, 0 < id) → a.lId = 0 ∧ a.lep = fmomP4from lvReal lvReal.zero) ∧
      ∀ (RecoTops Sonnenschein : Reco ℝ Unit) (entry : Nat) (st : St ℝ Unit),
        (eventHandler lvReal realSincos RecoTops Sonnenschein entry noLeptons st).1.sh =
          (Sonnenschein a (RecoTops a st.sh).2).2 :=
  ⟨by simp [WellFormed, noLeptons, scenario],
    C5_missing_role_passed_as_zero lvReal realSincos noLeptons
      (by simp [WellFormed, noLeptons, scenario])⟩

/-- C6: on a well-formed event the missing transverse energy components handed to the
reconstruction are `Etx = met * cos phi` and `Ety = met * sin phi`; over the reals their
squares add up to `met ^ 2`, and for `phi = 0` the pair is `(met, 0)`. -/
theorem C6_met_components (L : LvPkg ℝ V) (ev : Event ℝ) (hwf : WellFormed ev) :
    ∃ a, prepareInput L realSincos ev = .ok a ∧
      a.Etx = ev.metMet * Real.cos ev.metPhi ∧ a.Ety = ev.metMet * Real.sin ev.metPhi ∧
      a.Etx ^ 2 + a.Ety ^ 2 = ev.metMet ^ 2 ∧
      (ev.metPhi = 0 → a.Etx = ev.metMet ∧ a.Ety = 0) := by
  obtain ⟨a, ha⟩ := prepareInput_ok L realSincos ev hwf
  obtain ⟨leps, pt0, pt1, eta0, eta1, phi1, e0, e1, d0, d1, -, -, -, -, -, -, -, -, -, -,
    rfl⟩ := (prepareInput_eq_ok_iff L realSincos ev a).mp ha
  refine ⟨_, ha, rfl, rfl, ?_, ?_⟩
  · simp only [metComponents, realSincos]
    have := Real.sin_sq_add_cos_sq ev.metPhi
    nlinarith [this]
  · intro h0
    simp [metComponents, realSincos, h0]

/-- Witness of C6: the scenario, with magnitude 25 and azimuth 0. -/
theorem C6_witness :
    WellFormed scenario ∧
    ∃ a, prepareInput lvReal realSincos scenario = .ok a ∧
      a.Etx = scenario.metMet * Real.cos scenario.metPhi ∧
      a.Ety = scenario.metMet * Real.sin scenario.metPhi ∧
      a.Etx ^ 2 + a.Ety ^ 2 = scenario.metMet ^ 2 ∧
      (scenario.metPhi = 0 → a.Etx = scenario.metMet ∧ a.Ety = 0) :=
  ⟨by simp [WellFormed, scenario],
    C6_met_components lvReal scenario (by simp [WellFormed, scenario])⟩

/-- C7: one turn of the lepton loop on an entry with `pT >= 0` stores, in the anti-lepton
slot for a positive identifier and in the lepton slot otherwise, the four-vector with
`px = pT cos phi`, `py = pT sin phi`, `pz = pT sinh eta` and mass 0.0; it is massless,
`E ^ 2 = px ^ 2 + py ^ 2 + pz ^ 2`, that is `E = pT cosh eta`. -/
theorem C7_lepton_massless (ev : Event ℝ) (i : Nat) (id : Int) (s : Leptons (PxPyPzE ℝ))
    (pt eta phi : ℝ) (hpt : ev.lepPt[i]? = some pt) (heta : ev.lepEta[i]? = some eta)
    (hphi : ev.lepPhi[i]? = some phi) (h0 : 0 ≤ pt) :
    ∃ r, leptonLoop lvReal ev [id] i s = .ok r ∧
      (if 0 < id then r.lbarP else r.lP) = lvReal.NewFourVecPtEtaPhiM pt eta phi 0.0 ∧
      (if 0 < id then r.lbarId else r.lId) = id ∧
      (lvReal.NewFourVecPtEtaPhiM pt eta phi 0.0).Px = pt * Real.cos phi ∧
      (lvReal.NewFourVecPtEtaPhiM pt eta phi 0.0).Py = pt * Real.sin phi ∧
      (lvReal.NewFourVecPtEtaPhiM pt eta phi 0.0).Pz = pt * Real.sinh eta ∧
      (lvReal.NewFourVecPtEtaPhiM pt eta phi 0.0).E ^ 2 =
        (pt * Real.cos phi) ^ 2 + (pt * Real.sin phi) ^ 2 + (pt * Real.sinh eta) ^ 2 ∧
      (lvReal.NewFourVecPtEtaPhiM pt eta phi 0.0).E = pt * Real.cosh eta := by
  have hE : (lvReal.NewFourVecPtEtaPhiM pt eta phi 0.0).E = pt * Real.cosh eta := by
    have hsq : pt * Real.cos phi * (pt * Real.cos phi) + pt * Real.sin phi * (pt * Real.sin phi)
        + pt * Real.sinh eta * (pt * Real.sinh eta) + (0.0 : ℝ) * 0.0
        = (pt * Real.cosh eta) ^ 2 := by
      have h1 := Real.sin_sq_add_cos_sq phi
      have h2 := Real.cosh_sq eta
      have h3 : (0.0 : ℝ) = 0 := by norm_num
      rw [h3]
      have : pt * Real.cos phi * (pt * Real.cos phi) + pt * Real.sin phi * (pt * Real.sin phi)
          + pt * Real.sinh eta * (pt * Real.sinh eta) + (0 : ℝ) * 0
          = pt ^ 2 * (Real.sin phi ^ 2 + Real.cos phi ^ 2 + Real.sinh eta ^ 2) := by ring
      rw [this, h1, add_comm 1, ← h2]
      ring
    show Real.sqrt _ = _
    rw [hsq]
    exact Real.sqrt_sq (mul_nonneg h0 (Real.cosh_pos eta).le)
  have hE2 : (lvReal.NewFourVecPtEtaPhiM pt eta phi 0.0).E ^ 2 =
      (pt * Real.cos phi) ^ 2 + (pt * Real.sin phi) ^ 2 + (pt * Real.sinh eta) ^ 2 := by
    rw [hE]
    have h1 := Real.sin_sq_add_cos_sq phi
    have h2 := Real.cosh_sq eta
    have : (pt * Real.cos phi) ^ 2 + (pt * Real.sin phi) ^ 2 + (pt * Real.sinh eta) ^ 2
        = pt ^ 2 * (Real.sin phi ^ 2 + Real.cos phi ^ 2 + Real.sinh eta ^ 2) := by ring
    rw [this, h1, add_comm 1, ← h2]
    ring
  have hrun : leptonLoop lvReal ev [id] i s =
      .ok (if 0 < id then
          { s with lbarId := id, lbarP := lvReal.NewFourVecPtEtaPhiM pt eta phi 0.0 }
        else { s with lId := id, lP := lvReal.NewFourVecPtEtaPhiM pt eta phi 0.0 }) := by
    rw [leptonLoop, (index_eq_ok_iff _ _ _).mpr hpt, (index_eq_ok_iff _ _ _).mpr heta,
      (index_eq_ok_iff _ _ _).mpr hphi]
    by_cases hid : 0 < id
    · simp [hid, leptonLoop, bind, Except.bind]
    · simp [hid, leptonLoop, bind, Except.bind]
  refine ⟨_, hrun, ?_, ?_, rfl, rfl, rfl, hE2, hE⟩
  · by_cases hid : 0 < id <;> simp [hid]
  · by_cases hid : 0 < id <;> simp [hid]

/-- Witness of C7: the first lepton of the scenario, with `pT = 50`. -/
theorem C7_witness :
    scenario.lepPt[0]? = some (50 : ℝ) ∧ (0 : ℝ) ≤ 50 ∧
    ∃ r, leptonLoop lvReal scenario [11] 0 ⟨lvReal.zero, lvReal.zero, 0, 0⟩ = .ok r ∧
      r.lbarP.E = 50 * Real.cosh 0.1 := by
  obtain ⟨r, hr, h1, -, -, -, -, -, h2⟩ := C7_lepton_massless scenario 0 11
    ⟨lvReal.zero, lvReal.zero, 0, 0⟩ 50 0.1 0.3 (by simp [scenario]) (by simp [scenario])
    (by simp [scenario]) (by norm_num)
  refine ⟨by simp [scenario], by norm_num, r, hr, ?_⟩
  have h3 : r.lbarP = lvReal.NewFourVecPtEtaPhiM 50 0.1 0.3 0.0 := by simpa using h1
  rw [h3, h2]

/-- C10: on well-formed events the b-tag flag of each of the two leading jets is true
exactly when that jet's own discriminant is strictly above 0.691 (not at 0.691); the
decision is monotone in the discriminant, and two events that agree on the discriminant
of a jet agree on its flag whatever their other discriminants are. -/
theorem C10_btag_flags (L : LvPkg F V) (Sincos : F → F × F) (ev ev2 : Event F)
    (hwf : WellFormed ev) (hwf2 : WellFormed ev2) :
    ∃ (a a2 : RecoArgs F) (d0 d1 c0 c1 : F),
      prepareInput L Sincos ev = .ok a ∧ prepareInput L Sincos ev2 = .ok a2 ∧
      ev.jetMV2c10[0]? = some d0 ∧ ev.jetMV2c10[1]? = some d1 ∧
      ev2.jetMV2c10[0]? = some c0 ∧ ev2.jetMV2c10[1]? = some c1 ∧
      (a.j1b = true ↔ 0.691 < d0) ∧ (a.j2b = true ↔ 0.691 < d1) ∧
      (d0 = 0.691 → a.j1b = false) ∧ (d1 = 0.691 → a.j2b = false) ∧
      (d0 ≤ c0 → a.j1b = true → a2.j1b = true) ∧
      (d1 ≤ c1 → a.j2b = true → a2.j2b = true) ∧
      (d0 = c0 → a.j1b = a2.j1b) ∧ (d1 = c1 → a.j2b = a2.j2b) := by
  obtain ⟨a, ha⟩ := prepareInput_ok L Sincos ev hwf
  obtain ⟨a2, ha2⟩ := prepareInput_ok L Sincos ev2 hwf2
  obtain ⟨leps, pt0, pt1, eta0, eta1, phi1, e0, e1, d0, d1, -, -, -, -, -, -, -, -, hd0, hd1,
    rfl⟩ := (prepareInput_eq_ok_iff L Sincos ev a).mp ha
  obtain ⟨leps2, qt0, qt1, fta0, fta1, psi1, f0, f1, c0, c1, -, -, -, -, -, -, -, -, hc0, hc1,
    rfl⟩ := (prepareInput_eq_ok_iff L Sincos ev2 a2).mp ha2
  refine ⟨_, _, d0, d1, c0, c1, ha, ha2, hd0, hd1, hc0, hc1, ?_, ?_, ?_, ?_, ?_, ?_, ?_, ?_⟩
  · simp
  · simp
  · intro h
    simp [h]
  · intro h
    simp [h]
  · intro h1 h2
    simp only [gt_iff_lt, decide_eq_true_eq] at h2 ⊢
    exact lt_of_lt_of_le h2 h1
  · intro h1 h2
    simp only [gt_iff_lt, decide_eq_true_eq] at h2 ⊢
    exact lt_of_lt_of_le h2 h1
  · intro h
    simp [h]
  · intro h
    simp [h]

/-- Witness of C10: the scenario (discriminants 0.9 and 0.8) and its variant without
leptons. -/
theorem C10_witness :
    WellFormed scenario ∧ WellFormed noLeptons ∧
    ∃ (a a2 : RecoArgs ℝ) (d0 d1 c0 c1 : ℝ),
      prepareInput lvReal realSincos scenario = .ok a ∧
      prepareInput lvReal realSincos noLeptons = .ok a2 ∧
      scenario.jetMV2c10[0]? = some d0 ∧ scenario.jetMV2c10[1]? = some d1 ∧
      noLeptons.jetMV2c10[0]? = some c0 ∧ noLeptons.jetMV2c10[1]? = some c1 ∧
      (a.j1b = true ↔ 0.691 < d0) ∧ (a.j2b = true ↔ 0.691 < d1) ∧
      (d0 = 0.691 → a.j1b = false) ∧ (d1 = 0.691 → a.j2b = false) ∧
      (d0 ≤ c0 → a.j1b = true → a2.j1b = true) ∧
      (d1 ≤ c1 → a.j2b = true → a2.j2b = true) ∧
      (d0 = c0 → a.j1b = a2.j1b) ∧ (d1 = c1 → a.j2b = a2.j2b) :=
  ⟨by simp [WellFormed, scenario], by simp [WellFormed, noLeptons, scenario],
    C10_btag_flags lvReal realSincos scenario noLeptons (by simp [WellFormed, scenario])
      (by simp [WellFormed, noLeptons, scenario])⟩

/-- C8: the event loop starts with the counter at 0 on the first 100 entries (a tree with
fewer entries is refused before any event is processed); one handler call adds exactly 1
to the counter when the reconstruction result is empty or its first or its second entry
is bad, and leaves it unchanged otherwise; the loop runs the handler on each entry in
turn on the state the previous call has left and stops at a panic, so that the counter
accumulates over the processed events: it never decreases, never exceeds the number of
handler calls (at most 100), and when all calls complete it ends at its start plus the
number of entries on which a call adds one. -/
theorem C8_nBad_counter (L : LvPkg F V) (Sincos : F → F × F)
    (RecoTops Sonnenschein : Reco F S) :
    (∀ (tree : List (Event F)) (sh : S),
      eventLoop L Sincos RecoTops Sonnenschein tree sh =
        if 100 ≤ tree.length then
          .ok (readLoop (eventHandler L Sincos RecoTops Sonnenschein) (tree.take 100) 0
            { nBad := 0, sh := sh, out := [] })
        else .error Fatal.couldNotCreateTreeReader) ∧
    (∀ (entry : Nat) (ev : Event F) (st : St F S),
      ((eventHandler L Sincos RecoTops Sonnenschein entry ev st).1.nBad = st.nBad + 1 ↔
        ∃ a, prepareInput L Sincos ev = .ok a ∧
          ((RecoTops a st.sh).1 = [] ∨
           (∃ t, (RecoTops a st.sh).1[0]? = some t ∧ isBad t = true) ∨
           (∃ t, (RecoTops a st.sh).1[1]? = some t ∧ isBad t = true))) ∧
      ((eventHandler L Sincos RecoTops Sonnenschein entry ev st).1.nBad = st.nBad ∨
        (eventHandler L Sincos RecoTops Sonnenschein entry ev st).1.nBad = st.nBad + 1)) ∧
    (∀ (i : Nat) (st : St F S),
      readLoop (eventHandler L Sincos RecoTops Sonnenschein) [] i st = (0, st, .ok ())) ∧
    (∀ (ev : Event F) (rest : List (Event F)) (i : Nat) (st : St F S),
      ((eventHandler L Sincos RecoTops Sonnenschein i ev st).2 = .ok () →
        readLoop (eventHandler L Sincos RecoTops Sonnenschein) (ev :: rest) i st =
          ((readLoop (eventHandler L Sincos RecoTops Sonnenschein) rest (i + 1)
              (eventHandler L Sincos RecoTops Sonnenschein i ev st).1).1 + 1,
           (readLoop (eventHandler L Sincos RecoTops Sonnenschein) rest (i + 1)
              (eventHandler L Sincos RecoTops Sonnenschein i ev st).1).2)) ∧
      (∀ p, (eventHandler L Sincos RecoTops Sonnenschein i ev st).2 = .error p →
        readLoop (eventHandler L Sincos RecoTops Sonnenschein) (ev :: rest) i st =
          (1, (eventHandler L Sincos RecoTops Sonnenschein i ev st).1, .error p))) ∧
    (∀ (evs : List (Event F)) (i : Nat) (st : St F S),
      st.nBad ≤ (readLoop (eventHandler L Sincos RecoTops Sonnenschein) evs i st).2.1.nBad ∧
      (readLoop (eventHandler L Sincos RecoTops Sonnenschein) evs i st).2.1.nBad ≤
        st.nBad + (readLoop (eventHandler L Sincos RecoTops Sonnenschein) evs i st).1 ∧
      (readLoop (eventHandler L Sincos RecoTops Sonnenschein) evs i st).1 ≤ evs.length) ∧
    (∀ (bad : Event F → Bool) (evs : List (Event F)),
      (∀ ev ∈ evs, ∀ (j : Nat) (s : St F S),
        (eventHandler L Sincos RecoTops Sonnenschein j ev s).2 = .ok () ∧
        (eventHandler L Sincos RecoTops Sonnenschein j ev s).1.nBad =
          s.nBad + (if bad ev then 1 else 0)) →
      ∀ (i : Nat) (st : St F S),
        (readLoop (eventHandler L Sincos RecoTops Sonnenschein) evs i st).1 = evs.length ∧
        (readLoop (eventHandler L Sincos RecoTops Sonnenschein) evs i st).2.2 = .ok () ∧
        (readLoop (eventHandler L Sincos RecoTops Sonnenschein) evs i st).2.1.nBad =
          st.nBad + evs.countP bad) ∧
    (∀ (tree : List (Event F)) (sh : S) (r : Nat × St F S × Except Panic Unit),
      eventLoop L Sincos RecoTops Sonnenschein tree sh = .ok r →
        r.2.1.nBad ≤ r.1 ∧ r.1 ≤ 100) := by
  have hf : ∀ (i : Nat) (ev : Event F) (st : St F S),
      st.nBad ≤ (eventHandler L Sincos RecoTops Sonnenschein i ev st).1.nBad ∧
      (eventHandler L Sincos RecoTops Sonnenschein i ev st).1.nBad ≤ st.nBad + 1 := by
    intro i ev st
    rcases (eventHandler_nBad L Sincos RecoTops Sonnenschein i ev st).2 with h | h <;>
      rw [h] <;> omega
  have hloop : ∀ (tree : List (Event F)) (sh : S),
      eventLoop L Sincos RecoTops Sonnenschein tree sh =
        if 100 ≤ tree.length then
          .ok (readLoop (eventHandler L Sincos RecoTops Sonnenschein) (tree.take 100) 0
            { nBad := 0, sh := sh, out := [] })
        else .error Fatal.couldNotCreateTreeReader := by
    intro tree sh
    unfold eventLoop newReader
    by_cases hl : 100 ≤ tree.length
    · simp [hl]
    · simp [hl]
  refine ⟨hloop, ?_, ?_, ?_, ?_, ?_, ?_⟩
  · intro entry ev st
    exact eventHandler_nBad L Sincos RecoTops Sonnenschein entry ev st
  · intro i st
    rfl
  · intro ev rest i st
    exact readLoop_cons _ ev rest i st
  · intro evs i st
    exact readLoop_nBad _ hf evs i st
  · intro bad evs h i st
    exact readLoop_count _ bad evs h i st
  · intro tree sh r hr
    rw [hloop] at hr
    split at hr
    · have hr2 := Except.ok.inj hr
      subst hr2
      obtain ⟨-, h2, h3⟩ := readLoop_nBad _ hf (tree.take 100) 0
        ({ nBad := 0, sh := sh, out := [] } : St F S)
      have hlen : (tree.take 100).length ≤ 100 := by simp
      simp only [Nat.zero_add] at h2
      exact ⟨h2, by omega⟩
    · cases hr

/-- Witness of C8: on the tree of 100 entries, with a reconstruction that fails on the
50 untagged entries, the loop processes the 100 entries and ends with the counter at
50. -/
theorem C8_witness :
    ∃ r, eventLoop lvReal realSincos recoByTag recoByTag tree100 () = .ok r ∧
      r.1 = 100 ∧ r.2.2 = .ok () ∧ r.2.1.nBad = 50 := by
  obtain ⟨h1, -, -, -, -, h6, -⟩ := C8_nBad_counter lvReal realSincos recoByTag recoByTag
  have hlen : tree100.length = 100 := by simp [tree100]
  have htake : tree100.take 100 = tree100 := List.take_of_length_le (by omega)
  have hacc := h6 (fun ev => decide (ev.jetMV2c10[0]? = some (0.1 : ℝ))) tree100
    (by
      intro ev hev j s
      have hcase : ev = scenario ∨ ev = untagged := by
        rcases List.mem_append.mp hev with h | h
        · exact Or.inl (List.eq_of_mem_replicate h)
        · exact Or.inr (List.eq_of_mem_replicate h)
      rcases hcase with rfl | rfl
      · have hb : decide (scenario.jetMV2c10[0]? = some (0.1 : ℝ)) = false := by
          simp [scenario]
          norm_num
        simp only [hb]
        exact handler_scenario_recoByTag j s
      · have hb : decide (untagged.jetMV2c10[0]? = some (0.1 : ℝ)) = true := by
          simp [untagged]
        simp only [hb]
        exact handler_untagged_recoByTag j s)
    0 { nBad := 0, sh := (), out := [] }
  have hcount : tree100.countP (fun ev => decide (ev.jetMV2c10[0]? = some (0.1 : ℝ))) = 50 := by
    have hs : decide (scenario.jetMV2c10[0]? = some (0.1 : ℝ)) = false := by
      simp [scenario]
      norm_num
    have hu : decide (untagged.jetMV2c10[0]? = some (0.1 : ℝ)) = true := by
      simp [untagged]
    simp [tree100, List.countP_append, List.countP_replicate, hs, hu]
  have heq : eventLoop lvReal realSincos recoByTag recoByTag tree100 () =
      .ok (readLoop (eventHandler lvReal realSincos recoByTag recoByTag) tree100 0
        { nBad := 0, sh := (), out := [] }) := by
    rw [h1, if_pos (by omega), htake]
  exact ⟨_, heq, by rw [hacc.1, hlen], hacc.2.1, by rw [hacc.2.2, hcount]⟩

/-- C9 as stated fails: on the scenario, with a reconstruction result of two momenta and
a one-element result of the second reconstruction function, the handler stops with an
index out of range at `xtops[1]`. -/
theorem C9_fails_on_single_xtop :
    WellFormed scenario ∧
    ∃ a, prepareInput lvReal realSincos scenario = .ok a ∧
      (recoPair a ()).1.length = 2 ∧
      (recoSingle a (recoPair a ()).2).1.length = 1 ∧
      (eventHandler lvReal realSincos recoPair recoSingle 0 scenario
        { nBad := 0, sh := (), out := [] }).2 = .error (.indexOutOfRange 1 1) := by
  have hwf : WellFormed scenario := by simp [WellFormed, scenario]
  obtain ⟨a, ha⟩ := prepareInput_ok lvReal realSincos scenario hwf
  refine ⟨hwf, a, ha, rfl, rfl, ?_⟩
  rw [(eventHandler_two lvReal realSincos recoPair recoSingle 0 scenario _ a goodTop goodTop []
    ha rfl).1]
  exact (printXtops_status _).2 rfl

/-- C9, amended: on a well-formed event the handler completes exactly when the
reconstruction result `tops` has at least two entries and the result `xtops` of the
second reconstruction function does not have exactly one.  On an empty `tops` it first
counts the event as bad, prints the lines up to the lepton momenta and then stops at
`tops[0]`; on a one-element `tops` it stops at `tops[1]`; on a one-element `xtops` (with
two entries in `tops`) it stops at `xtops[1]`. -/
theorem C9_handler_completes_iff (L : LvPkg F V) (Sincos : F → F × F)
    (RecoTops Sonnenschein : Reco F S) (entry : Nat) (ev : Event F) (st : St F S)
    (hwf : WellFormed ev) :
    ∃ a, prepareInput L Sincos ev = .ok a ∧
      ((eventHandler L Sincos RecoTops Sonnenschein entry ev st).2 = .ok () ↔
        2 ≤ (RecoTops a st.sh).1.length ∧
        (Sonnenschein a (RecoTops a st.sh).2).1.length ≠ 1) ∧
      ((RecoTops a st.sh).1.length = 0 →
        (eventHandler L Sincos RecoTops Sonnenschein entry ev st).1.nBad = st.nBad + 1 ∧
        (eventHandler L Sincos RecoTops Sonnenschein entry ev st).1.out = st.out ++
          [Line.entry entry (st.nBad + 1), Line.evtNumber ev.evtNum, Line.nBjets ev.nBjets,
           Line.finalState ev.lepPid, Line.p4l a.lep, Line.p4lbar a.lepbar] ∧
        (eventHandler L Sincos RecoTops Sonnenschein entry ev st).2 =
          .error (.indexOutOfRange 0 0)) ∧
      ((RecoTops a st.sh).1.length = 1 →
        (eventHandler L Sincos RecoTops Sonnenschein entry ev st).2 =
          .error (.indexOutOfRange 1 1)) ∧
      (2 ≤ (RecoTops a st.sh).1.length →
        (Sonnenschein a (RecoTops a st.sh).2).1.length = 1 →
        (eventHandler L Sincos RecoTops Sonnenschein entry ev st).2 =
          .error (.indexOutOfRange 1 1)) := by
  obtain ⟨a, ha⟩ := prepareInput_ok L Sincos ev hwf
  refine ⟨a, ha, ?_⟩
  match ht : (RecoTops a st.sh).1 with
  | [] =>
    rw [eventHandler_nil L Sincos RecoTops Sonnenschein entry ev st a ha ht]
    simp
  | [t0] =>
    rw [(eventHandler_one L Sincos RecoTops Sonnenschein entry ev st a t0 ha ht).1]
    simp
  | t0 :: t1 :: rest =>
    rw [(eventHandler_two L Sincos RecoTops Sonnenschein entry ev st a t0 t1 rest ha ht).1]
    have hx := printXtops_status (Sonnenschein a (RecoTops a st.sh).2).1
    simp only [List.length_cons]
    refine ⟨?_, by omega, by omega, fun _ h1 => hx.2 h1⟩
    rw [hx.1]
    constructor
    · intro h
      exact ⟨by omega, h⟩
    · intro h
      exact h.2

/-- Witness of C9: the scenario with two reconstruction functions that return two
momenta each. -/
theorem C9_witness :
    WellFormed scenario ∧
    ∃ a, prepareInput lvReal realSincos scenario = .ok a ∧
      (eventHandler lvReal realSincos recoPair recoPair 0 scenario
        { nBad := 0, sh := (), out := [] }).2 = .ok () := by
  have hwf : WellFormed scenario := by simp [WellFormed, scenario]
  obtain ⟨a, ha, h1, -⟩ := C9_handler_completes_iff lvReal realSincos recoPair recoPair 0
    scenario { nBad := 0, sh := (), out := [] } hwf
  exact ⟨hwf, a, ha, h1.mpr ⟨by simp [recoPair], by simp [recoPair]⟩⟩

end Claims

end TopReco
